import Mathlib

set_option linter.unusedVariables false

/-!
# Verification of `pubsub_logging/utils.py`

A shallow embedding of the utilities module of the cloud-pubsub-logging
package.  The module is glue over an external message-bus client library:
we model the external client as a structure of Lean functions (its
`topic_path` and `publish` methods, each of which may fail), Python
exceptions as values carrying their textual representation (`str(e)`),
and the module's functions as pure Lean functions.  `publish_body` is
additionally instrumented with the list of calls it makes to the
underlying `client.publish`, so that "the transport received these bytes
at this path, and was invoked this many times" are provable statements.
-/

namespace PubsubLogging

/-- The result of `str(e)` on a Python exception raised by the external
client library (path resolution or publish).  A shallow embedding
identifies a native exception with its textual representation, which is
all `publish_body` inspects. -/
abbrev ErrStr := String

/-- Modelled from the spec: `RecoverableError`, defined in
`pubsub_logging/errors.py` (not part of the sources given), is a bare
marker exception type; `publish_body` raises it with no arguments, so it
carries no detail of the original error.  An exception escaping
`publish_body` is either a native library exception (identified by its
`str`) or the `RecoverableError` marker. -/
inductive PubError where
  | native (msg : ErrStr)
  | recoverable
deriving DecidableEq, Repr

/-- `listIsPfx n h` decides whether the list `n` is a prefix of `h`. -/
def listIsPfx : List Char → List Char → Bool
  | [], _ => true
  | _ :: _, [] => false
  | a :: as, b :: bs => a == b && listIsPfx as bs

/-- `listHasSub n h` decides whether `n` occurs as a contiguous sublist
of `h`. -/
def listHasSub (needle : List Char) : List Char → Bool
  | [] => listIsPfx needle []
  | c :: rest => listIsPfx needle (c :: rest) || listHasSub needle rest

/-- Python's `needle in hay` on strings: substring containment. -/
def strHasSub (hay needle : String) : Bool :=
  listHasSub needle.data hay.data

/-- UTF-8 encoding of a single character (Python `str.encode()`), as a
list of byte values. -/
def utf8EncodeChar (c : Char) : List Nat :=
  if c.toNat < 128 then [c.toNat]
  else if c.toNat < 2048 then [192 + c.toNat / 64, 128 + c.toNat % 64]
  else if c.toNat < 65536 then
    [224 + c.toNat / 4096, 128 + c.toNat / 64 % 64, 128 + c.toNat % 64]
  else
    [240 + c.toNat / 262144, 128 + c.toNat / 4096 % 64, 128 + c.toNat / 64 % 64,
      128 + c.toNat % 64]

/-- UTF-8 encoding of a string (Python's `str.encode()`), as the list of
byte values of the resulting `bytes` object. -/
def strEncode (s : String) : List Nat :=
  s.data.flatMap utf8EncodeChar

/-- JSON values: the payloads Python's `json.dumps` can serialize. -/
inductive JValue where
  | jnull
  | jbool (b : Bool)
  | jnum (n : Int)
  | jstr (s : String)
  | jarr (xs : List JValue)
  | jobj (kvs : List (String × JValue))
deriving Repr

/-- Four lowercase hex digits of `n % 65536`, as used by `json.dumps`
for `\uXXXX` escapes. -/
def hex4 (n : Nat) : List Char :=
  let d := fun k => (Nat.digitChar (n / k % 16))
  [d 4096, d 256, d 16, d 1]

/-- The escape `json.dumps` (with its default `ensure_ascii=True`)
produces for one character of a JSON string: printable ASCII other than
quote and backslash passes through, the two-character shortcuts cover
backspace, tab, newline, form feed, carriage return, quote and
backslash, everything else becomes `\uXXXX` (a surrogate pair above
U+FFFF). -/
def jsonEscapeChar (c : Char) : List Char :=
  let n := c.toNat
  if c = '"' then ['\\', '"']
  else if c = '\\' then ['\\', '\\']
  else if n = 8 then ['\\', 'b']
  else if n = 9 then ['\\', 't']
  else if n = 10 then ['\\', 'n']
  else if n = 12 then ['\\', 'f']
  else if n = 13 then ['\\', 'r']
  else if 32 ≤ n ∧ n ≤ 126 then [c]
  else if n < 65536 then '\\' :: 'u' :: hex4 n
  else
    let m := n - 65536
    ('\\' :: 'u' :: hex4 (55296 + m / 1024)) ++ ('\\' :: 'u' :: hex4 (56320 + m % 1024))

/-- `json.dumps` serialization of a JSON string literal, quotes
included. -/
def jsonQuote (s : String) : String :=
  ⟨'"' :: s.data.flatMap jsonEscapeChar ++ ['"']⟩

mutual

/-- Python's `json.dumps` with default arguments (item separator `", "`,
key separator `": "`, `ensure_ascii=True`). -/
def dumps : JValue → String
  | .jnull => "null"
  | .jbool true => "true"
  | .jbool false => "false"
  | .jnum n => toString n
  | .jstr s => jsonQuote s
  | .jarr xs => "[" ++ dumpsList xs ++ "]"
  | .jobj kvs => "\x7b" ++ dumpsObj kvs ++ "\x7d"

/-- Array elements joined by `", "`. -/
def dumpsList : List JValue → String
  | [] => ""
  | [x] => dumps x
  | x :: y :: rest => dumps x ++ ", " ++ dumpsList (y :: rest)

/-- Object members `"key": value` joined by `", "`. -/
def dumpsObj : List (String × JValue) → String
  | [] => ""
  | [kv] => jsonQuote kv.1 ++ ": " ++ dumps kv.2
  | kv :: kv2 :: rest => jsonQuote kv.1 ++ ": " ++ dumps kv.2 ++ ", " ++ dumpsObj (kv2 :: rest)

end

/-- The `body` argument of `publish_body`: either a JSON-serializable
value, or an object on which `json.dumps` raises (a `TypeError` whose
`str` is `errMsg`). -/
inductive Body where
  | json (v : JValue)
  | unserializable (errMsg : ErrStr)

/-- `json.dumps(body)`: the serialized text, or the serialization
error. -/
def dumpsBody : Body → Except ErrStr String
  | .json v => .ok (dumps v)
  | .unserializable m => .error m

/-- The external Cloud Pub/Sub client: `topic_path` resolves a
(project, topic) pair to a fully-qualified path or raises, and `publish`
submits bytes to a path, returning a future (modelled by the broker
message id it will resolve to) or raising. -/
structure Client where
  topic_path : String → String → Except ErrStr String
  publish : String → List Nat → Except ErrStr String

/-- One invocation of `client.publish`: the path it was given and the
bytes of its `data` argument. -/
structure PublishCall where
  path : String
  data : List Nat
deriving DecidableEq, Repr

/-- The `except` block of `publish_body`: with `err_str = str(e)`, if
`'200' not in err_str` re-raise the original exception, otherwise raise
`RecoverableError()`. -/
def classify (errStr : ErrStr) : PubError :=
  if strHasSub errStr "200" then .recoverable else .native errStr

/-- `publish_body(client, body, project_id, topic)`.  Inside one `try`
block the code resolves `topic_path = client.topic_path(project_id,
topic)`, evaluates `json.dumps(body).encode()`, and calls
`client.publish(topic_path, data=...)`, discarding the returned future;
any exception from the block is classified by `classify`.  The second
component records every call made to `client.publish`. -/
def publish_body (client : Client) (body : Body) (project_id topic : String) :
    Except PubError Unit × List PublishCall :=
  match client.topic_path project_id topic with
  | .error e => (.error (classify e), [])
  | .ok topicPath =>
    match dumpsBody body with
    | .error e => (.error (classify e), [])
    | .ok s =>
      match client.publish topicPath (strEncode s) with
      | .error e => (.error (classify e), [⟨topicPath, strEncode s⟩])
      | .ok _future => (.ok (), [⟨topicPath, strEncode s⟩])

/-- `check_topic(client, project_id, topic)`: `try` the path resolution
and return `True`; on any exception print the traceback to stderr (a
diagnostic side effect outside the pure model) and return `False`.  Its
Lean type `Bool`, rather than `Except _ Bool`, reflects that no
exception escapes it. -/
def check_topic (client : Client) (project_id topic : String) : Bool :=
  match client.topic_path project_id topic with
  | .ok _ => true
  | .error _ => false

/-- The external `pubsub_v1` library as the module sees it: its
`PublisherClient()` constructor is run exactly once, at import time, to
produce the module-level client. -/
structure Pubsub_v1 where
  PublisherClient : Client

/-- The module-level `published_client = pubsub_v1.PublisherClient()`,
constructed once at import of the module. -/
def published_client (lib : Pubsub_v1) : Client :=
  lib.PublisherClient

/-- `get_pubsub_client(http=None, credentials=None)`: ignores both
arguments and returns the module-level `published_client`.  Its Lean
type — total, returning `Client` — reflects that the call itself never
raises and has no effect. -/
def get_pubsub_client (lib : Pubsub_v1) (http : Option Unit)
    (credentials : Option Unit) : Client :=
  published_client lib

/-- A client behaving like the real library on the happy path:
`PublisherClient.topic_path` formats `projects/{project}/topics/{topic}`
and `publish` succeeds. -/
def stdClient : Client where
  topic_path := fun p t => .ok ("projects/" ++ p ++ "/topics/" ++ t)
  publish := fun _ _ => .ok "1"

/-- A client whose `publish` raises an intermittent-looking error, with
`"200"` in its text. -/
def recClient : Client where
  topic_path := fun p t => .ok ("projects/" ++ p ++ "/topics/" ++ t)
  publish := fun _ _ => .error "Deadline exceeded (200)"

/-- A client whose `publish` raises a permanent-looking error, without
`"200"` in its text. -/
def permClient : Client where
  topic_path := fun p t => .ok ("projects/" ++ p ++ "/topics/" ++ t)
  publish := fun _ _ => .error "403 Forbidden"

/-- A client whose `topic_path` raises an error without `"200"` in its
text. -/
def failPathClient : Client where
  topic_path := fun _ _ => .error "invalid project id"
  publish := fun _ _ => .ok "1"

/-- A client whose `topic_path` raises an error with `"200"` in its
text. -/
def failPath200Client : Client where
  topic_path := fun _ _ => .error "transient failure (200)"
  publish := fun _ _ => .ok "1"

/-- The urlsafe base64 alphabet (RFC 4648 section 5), as used by
Python's `base64.urlsafe_b64encode`: `A`-`Z`, `a`-`z`, `0`-`9`, `-`,
`_`. -/
def b64Alpha (n : Nat) : Char :=
  if n < 26 then Char.ofNat (65 + n)
  else if n < 52 then Char.ofNat (97 + (n - 26))
  else if n < 62 then Char.ofNat (48 + (n - 52))
  else if n = 62 then '-'
  else '_'

/-- Partial inverse of the urlsafe alphabet, used by
`base64.urlsafe_b64decode`. -/
def b64Idx (c : Char) : Option Nat :=
  let n := c.toNat
  if 65 ≤ n ∧ n ≤ 90 then some (n - 65)
  else if 97 ≤ n ∧ n ≤ 122 then some (n - 97 + 26)
  else if 48 ≤ n ∧ n ≤ 57 then some (n - 48 + 52)
  else if c = '-' then some 62
  else if c = '_' then some 63
  else none

/-- `base64.urlsafe_b64encode` over a list of byte values: each group
of three bytes becomes four alphabet characters; a trailing group of
one or two bytes is padded with `==` or `=`. -/
def b64encodeBytes : List Nat → List Char
  | [] => []
  | [b1] => [b64Alpha (b1 / 4), b64Alpha (b1 % 4 * 16), '=', '=']
  | [b1, b2] => [b64Alpha (b1 / 4), b64Alpha (b1 % 4 * 16 + b2 / 16), b64Alpha (b2 % 16 * 4), '=']
  | b1 :: b2 :: b3 :: rest =>
    b64Alpha (b1 / 4) :: b64Alpha (b1 % 4 * 16 + b2 / 16) ::
      b64Alpha (b2 % 16 * 4 + b3 / 64) :: b64Alpha (b3 % 64) :: b64encodeBytes rest

/-- `base64.urlsafe_b64decode` over a list of characters, producing the
byte values: groups of four characters decode to three bytes, with the
final group allowed one or two `=` padding characters. -/
def b64decodeBytes : List Char → Option (List Nat)
  | [] => some []
  | c1 :: c2 :: c3 :: c4 :: rest =>
    if c3 = '=' ∧ c4 = '=' ∧ rest = [] then
      (b64Idx c1).bind fun s1 => (b64Idx c2).map fun s2 =>
        [s1 * 4 + s2 / 16]
    else if c4 = '=' ∧ rest = [] then
      (b64Idx c1).bind fun s1 => (b64Idx c2).bind fun s2 => (b64Idx c3).map fun s3 =>
        [s1 * 4 + s2 / 16, s2 % 16 * 16 + s3 / 4]
    else
      (b64Idx c1).bind fun s1 => (b64Idx c2).bind fun s2 =>
        (b64Idx c3).bind fun s3 => (b64Idx c4).bind fun s4 =>
        (b64decodeBytes rest).map fun bs =>
          (s1 * 4 + s2 / 16) :: (s2 % 16 * 16 + s3 / 4) :: (s3 % 4 * 64 + s4) :: bs
  | _ => none

/-- A Unicode scalar value as a character, `none` when the code point
is not a valid scalar value. -/
def mkChar (n : Nat) : Option Char :=
  if h : n.isValidChar then some (Char.ofNat n) else none

/-- One step of UTF-8 decoding: given the first byte and the remaining
bytes, produce the code point it starts and the bytes left over, or
`none` on a malformed sequence. -/
def utf8DecodeOne (b1 : Nat) (rest : List Nat) : Option (Nat × List Nat) :=
  if b1 < 128 then some (b1, rest)
  else if b1 < 192 then none
  else if b1 < 224 then
    match rest with
    | b2 :: rest2 =>
      if 128 ≤ b2 ∧ b2 < 192 then
        some ((b1 - 192) * 64 + (b2 - 128), rest2)
      else none
    | [] => none
  else if b1 < 240 then
    match rest with
    | b2 :: b3 :: rest3 =>
      if 128 ≤ b2 ∧ b2 < 192 ∧ 128 ≤ b3 ∧ b3 < 192 then
        some ((b1 - 224) * 4096 + (b2 - 128) * 64 + (b3 - 128), rest3)
      else none
    | _ => none
  else if b1 < 248 then
    match rest with
    | b2 :: b3 :: b4 :: rest4 =>
      if 128 ≤ b2 ∧ b2 < 192 ∧ 128 ≤ b3 ∧ b3 < 192 ∧ 128 ≤ b4 ∧ b4 < 192 then
        some ((b1 - 240) * 262144 + (b2 - 128) * 4096 + (b3 - 128) * 64 + (b4 - 128), rest4)
      else none
    | _ => none
  else none

/-- UTF-8 decoding of a list of byte values (Python's
`bytes.decode('UTF-8')`), `none` on malformed input. -/
def utf8Decode (l : List Nat) : Option (List Char) :=
  match l with
  | [] => some []
  | b1 :: rest =>
    match h : utf8DecodeOne b1 rest with
    | none => none
    | some (n, rest2) =>
      (utf8Decode rest2).bind fun cs => (mkChar n).map fun c => c :: cs
termination_by l.length
decreasing_by
  have hle : rest2.length ≤ rest.length := by
    simp only [utf8DecodeOne] at h
    repeat' split at h
    all_goals simp_all
    all_goals omega
  simp only [List.length_cons]
  omega

/-- `compat_urlsafe_b64encode(v)` on Python 3:
`base64.urlsafe_b64encode(v.encode('UTF-8')).decode('ascii')` (the
base64 output is pure ASCII, so the final `decode('ascii')` just turns
its bytes into the corresponding characters). -/
def compat_urlsafe_b64encode (v : String) : String :=
  ⟨b64encodeBytes (strEncode v)⟩

/-- Urlsafe base64 decoding followed by UTF-8 decoding: the inverse
direction of `compat_urlsafe_b64encode`. -/
def urlsafeB64DecodeUTF8 (s : String) : Option String :=
  (b64decodeBytes s.data).bind fun bs => (utf8Decode bs).map fun cs => ⟨cs⟩

end PubsubLogging

namespace PubsubLogging

/-- C1: if the underlying `client.publish` raises an exception whose
text contains `"200"`, `publish_body` raises the `RecoverableError`
marker — never the original exception, and with no detail of the
original error (the `recoverable` constructor carries none). -/
theorem publish_body_raises_recoverable_of_200 (client : Client) (body : Body)
    (project_id topic path s : String) (m : ErrStr)
    (hpath : client.topic_path project_id topic = .ok path)
    (hdump : dumpsBody body = .ok s)
    (hpub : client.publish path (strEncode s) = .error m)
    (h200 : strHasSub m "200" = true) :
    (publish_body client body project_id topic).1 = .error .recoverable := by
  unfold publish_body
  rw [hpath, hdump]
  simp only [hpub, classify, h200, if_true]

/-- Witness for C1: on a client whose `publish` fails with
`"Deadline exceeded (200)"`, `publish_body` raises the recoverable
marker. -/
theorem publish_body_raises_recoverable_of_200_witness :
    (publish_body recClient (.json .jnull) "p" "t").1 = .error .recoverable :=
  publish_body_raises_recoverable_of_200 recClient (.json .jnull) "p" "t"
    "projects/p/topics/t" "null" "Deadline exceeded (200)" rfl rfl rfl (by decide)

/-- C2: any failure raised by path resolution or by the underlying
publish call whose text does not contain `"200"` is re-raised by
`publish_body` unchanged (same exception, identified in the model by its
`str`). -/
theorem publish_body_reraises_non_200 (client : Client) (body : Body)
    (project_id topic : String) (m : ErrStr)
    (hno : strHasSub m "200" = false)
    (hsrc : client.topic_path project_id topic = .error m ∨
      ∃ path s, client.topic_path project_id topic = .ok path ∧
        dumpsBody body = .ok s ∧ client.publish path (strEncode s) = .error m) :
    (publish_body client body project_id topic).1 = .error (.native m) := by
  unfold publish_body
  rcases hsrc with hpath | ⟨path, s, hpath, hdump, hpub⟩
  · rw [hpath]
    simp only [classify, hno, Bool.false_eq_true, if_false]
  · rw [hpath, hdump]
    simp only [hpub, classify, hno, Bool.false_eq_true, if_false]

/-- Witness for C2: a `"403 Forbidden"` failure of the underlying
publish is re-raised as itself. -/
theorem publish_body_reraises_non_200_witness :
    (publish_body permClient (.json .jnull) "p" "t").1 = .error (.native "403 Forbidden") :=
  publish_body_reraises_non_200 permClient (.json .jnull) "p" "t" "403 Forbidden"
    (by decide)
    (.inr ⟨"projects/p/topics/t", "null", rfl, rfl, rfl⟩)

/-- C3: on success, the bytes `publish_body` submitted to the transport
are exactly the UTF-8 encoding of `json.dumps(body)` and were sent to
the path `client.topic_path` produced; and in particular payload
`{"msg": "hello"}` on project `proj1`, topic `logs` sends the bytes of
`b'\x7b"msg": "hello"\x7d'` to `projects/proj1/topics/logs`. -/
theorem publish_body_sends_json_bytes (client : Client) (body : Body)
    (project_id topic : String)
    (hsucc : (publish_body client body project_id topic).1 = .ok ()) :
    (∃ path s, client.topic_path project_id topic = .ok path ∧
      dumpsBody body = .ok s ∧
      (publish_body client body project_id topic).2 = [⟨path, strEncode s⟩]) ∧
    publish_body stdClient (.json (.jobj [("msg", .jstr "hello")])) "proj1" "logs" =
      (.ok (), [⟨"projects/proj1/topics/logs",
        [123, 34, 109, 115, 103, 34, 58, 32, 34, 104, 101, 108, 108, 111, 34, 125]⟩]) := by
  refine ⟨?_, by rfl⟩
  unfold publish_body at hsucc ⊢
  cases hpath : client.topic_path project_id topic with
  | error e => rw [hpath] at hsucc; exact absurd hsucc (by simp)
  | ok path =>
    rw [hpath] at hsucc
    dsimp only at hsucc
    cases hdump : dumpsBody body with
    | error e => rw [hdump] at hsucc; exact absurd hsucc (by simp)
    | ok s =>
      rw [hdump] at hsucc
      dsimp only at hsucc
      refine ⟨path, s, rfl, rfl, ?_⟩
      dsimp only
      cases hpub : client.publish path (strEncode s) with
      | error e => rw [hpub] at hsucc
      | ok fut => rfl

/-- Witness for C3: instantiated at the standard client with the
`{"msg": "hello"}` payload, where the publish succeeds. -/
theorem publish_body_sends_json_bytes_witness :
    (∃ path s, stdClient.topic_path "proj1" "logs" = .ok path ∧
      dumpsBody (.json (.jobj [("msg", .jstr "hello")])) = .ok s ∧
      (publish_body stdClient (.json (.jobj [("msg", .jstr "hello")])) "proj1" "logs").2 =
        [⟨path, strEncode s⟩]) ∧
    publish_body stdClient (.json (.jobj [("msg", .jstr "hello")])) "proj1" "logs" =
      (.ok (), [⟨"projects/proj1/topics/logs",
        [123, 34, 109, 115, 103, 34, 58, 32, 34, 104, 101, 108, 108, 111, 34, 125]⟩]) :=
  publish_body_sends_json_bytes stdClient (.json (.jobj [("msg", .jstr "hello")]))
    "proj1" "logs" rfl

/-- C4: `check_topic` returns `true` exactly when `client.topic_path`
succeeds and `false` when it raises; its total `Bool` type embeds that
it never propagates an exception (failures only produce diagnostic
output, outside the pure model). -/
theorem check_topic_true_iff_path_ok (client : Client) (project_id topic : String) :
    ((∃ path, client.topic_path project_id topic = .ok path) →
      check_topic client project_id topic = true) ∧
    (∀ e, client.topic_path project_id topic = .error e →
      check_topic client project_id topic = false) := by
  constructor
  · rintro ⟨path, hpath⟩
    unfold check_topic
    rw [hpath]
  · intro e hpath
    unfold check_topic
    rw [hpath]

/-- Witness for C4: `check_topic` answers `true` on a resolving client
and `false` on one whose resolution raises. -/
theorem check_topic_true_iff_path_ok_witness :
    check_topic stdClient "proj1" "logs" = true ∧
    check_topic failPathClient "proj1" "logs" = false :=
  ⟨(check_topic_true_iff_path_ok stdClient "proj1" "logs").1 ⟨"projects/proj1/topics/logs", rfl⟩,
   (check_topic_true_iff_path_ok failPathClient "proj1" "logs").2 "invalid project id" rfl⟩

/-- C5: `get_pubsub_client` returns the module-level shared
`published_client` whatever its `http` and `credentials` arguments are;
its total Lean type records that the call never fails and, being pure,
has no effect beyond the one-time construction modelled by `lib`. -/
theorem get_pubsub_client_singleton (lib : Pubsub_v1) (h1 h2 c1 c2 : Option Unit) :
    get_pubsub_client lib h1 c1 = published_client lib ∧
    get_pubsub_client lib h1 c1 = get_pubsub_client lib h2 c2 :=
  ⟨rfl, rfl⟩

/-- C6: `publish_body` invokes the underlying `client.publish` at most
once, whatever the outcome — there is no internal retry loop. -/
theorem publish_body_publishes_at_most_once (client : Client) (body : Body)
    (project_id topic : String) :
    (publish_body client body project_id topic).2.length ≤ 1 := by
  unfold publish_body
  cases client.topic_path project_id topic with
  | error e => simp
  | ok path =>
    dsimp only
    cases dumpsBody body with
    | error e => simp
    | ok s =>
      dsimp only
      cases client.publish path (strEncode s) with
      | error e => simp
      | ok fut => simp

/-- C7: a successful `publish_body` returns normally with no value
(`Unit`), and the future returned by the underlying publish call is
discarded — the conclusion does not depend on `future`. -/
theorem publish_body_discards_future (client : Client) (body : Body)
    (project_id topic path s future : String)
    (hpath : client.topic_path project_id topic = .ok path)
    (hdump : dumpsBody body = .ok s)
    (hpub : client.publish path (strEncode s) = .ok future) :
    publish_body client body project_id topic = (.ok (), [⟨path, strEncode s⟩]) := by
  unfold publish_body
  rw [hpath, hdump]
  simp only [hpub]

/-- Witness for C7: the standard client's publish returns future `"1"`;
`publish_body` still returns plain success. -/
theorem publish_body_discards_future_witness :
    publish_body stdClient (.json .jnull) "p" "t" =
      (.ok (), [⟨"projects/p/topics/t", strEncode "null"⟩]) :=
  publish_body_discards_future stdClient (.json .jnull) "p" "t"
    "projects/p/topics/t" "null" "1" rfl rfl rfl

/-- C8: the `"200"` heuristic applies uniformly to path-resolution
failures: a `client.topic_path` exception whose text contains `"200"`
makes `publish_body` raise the `RecoverableError` marker. -/
theorem publish_body_recoverable_on_200_path_error (client : Client) (body : Body)
    (project_id topic : String) (m : ErrStr)
    (hpath : client.topic_path project_id topic = .error m)
    (h200 : strHasSub m "200" = true) :
    (publish_body client body project_id topic).1 = .error .recoverable := by
  unfold publish_body
  rw [hpath]
  simp only [classify, h200, if_true]

/-- Witness for C8: path resolution failing with
`"transient failure (200)"` yields the recoverable marker. -/
theorem publish_body_recoverable_on_200_path_error_witness :
    (publish_body failPath200Client (.json .jnull) "p" "t").1 = .error .recoverable :=
  publish_body_recoverable_on_200_path_error failPath200Client (.json .jnull) "p" "t"
    "transient failure (200)" rfl (by decide)

/-- C9: when `json.dumps(body)` raises (a non-serializable payload),
`publish_body` submits nothing to the transport (the call trace is
empty) and the serialization error goes through the same `"200"`
classification as transport errors. -/
theorem publish_body_serialization_error_classified (client : Client) (body : Body)
    (project_id topic path : String) (m : ErrStr)
    (hpath : client.topic_path project_id topic = .ok path)
    (hdump : dumpsBody body = .error m) :
    (publish_body client body project_id topic).2 = [] ∧
    (publish_body client body project_id topic).1 =
      (if strHasSub m "200" = true then .error .recoverable else .error (.native m)) := by
  unfold publish_body
  rw [hpath, hdump]
  refine ⟨rfl, ?_⟩
  simp only [classify]
  by_cases h : strHasSub m "200" = true
  · simp [h]
  · simp [h]

theorem b64Idx_b64Alpha : ∀ n < 64, b64Idx (b64Alpha n) = some n := by decide

theorem b64Alpha_ne_pad : ∀ n < 64, b64Alpha n ≠ '=' := by decide

theorem b64decode_encode (bs : List Nat) (hb : ∀ b ∈ bs, b < 256) :
    b64decodeBytes (b64encodeBytes bs) = some bs := by
  induction bs using b64encodeBytes.induct with
  | case1 => rfl
  | case2 b1 =>
    have h1 : b1 < 256 := hb b1 (by simp)
    rw [b64encodeBytes, b64decodeBytes, if_pos ⟨rfl, rfl, rfl⟩,
      b64Idx_b64Alpha (b1 / 4) (by omega), b64Idx_b64Alpha (b1 % 4 * 16) (by omega)]
    simp only [Option.some_bind, Option.map_some']
    have hby : b1 / 4 * 4 + b1 % 4 * 16 / 16 = b1 := by omega
    rw [hby]
  | case3 b1 b2 =>
    have h1 : b1 < 256 := hb b1 (by simp)
    have h2 : b2 < 256 := hb b2 (by simp)
    rw [b64encodeBytes, b64decodeBytes,
      if_neg (fun hc => b64Alpha_ne_pad (b2 % 16 * 4) (by omega) hc.1),
      if_pos ⟨rfl, rfl⟩,
      b64Idx_b64Alpha (b1 / 4) (by omega),
      b64Idx_b64Alpha (b1 % 4 * 16 + b2 / 16) (by omega),
      b64Idx_b64Alpha (b2 % 16 * 4) (by omega)]
    simp only [Option.some_bind, Option.map_some']
    have hx : b1 / 4 * 4 + (b1 % 4 * 16 + b2 / 16) / 16 = b1 := by omega
    have hy : (b1 % 4 * 16 + b2 / 16) % 16 * 16 + b2 % 16 * 4 / 4 = b2 := by omega
    rw [hx, hy]
  | case4 b1 b2 b3 rest ih =>
    have h1 : b1 < 256 := hb b1 (by simp)
    have h2 : b2 < 256 := hb b2 (by simp)
    have h3 : b3 < 256 := hb b3 (by simp)
    have hrest : ∀ b ∈ rest, b < 256 := fun b hbmem => hb b (by simp [hbmem])
    rw [b64encodeBytes, b64decodeBytes,
      if_neg (fun hc => b64Alpha_ne_pad (b2 % 16 * 4 + b3 / 64) (by omega) hc.1),
      if_neg (fun hc => b64Alpha_ne_pad (b3 % 64) (by omega) hc.1),
      b64Idx_b64Alpha (b1 / 4) (by omega),
      b64Idx_b64Alpha (b1 % 4 * 16 + b2 / 16) (by omega),
      b64Idx_b64Alpha (b2 % 16 * 4 + b3 / 64) (by omega),
      b64Idx_b64Alpha (b3 % 64) (by omega),
      ih hrest]
    simp only [Option.some_bind, Option.map_some']
    have hx : b1 / 4 * 4 + (b1 % 4 * 16 + b2 / 16) / 16 = b1 := by omega
    have hy : (b1 % 4 * 16 + b2 / 16) % 16 * 16 + (b2 % 16 * 4 + b3 / 64) / 4 = b2 := by omega
    have hz : (b2 % 16 * 4 + b3 / 64) % 4 * 64 + b3 % 64 = b3 := by omega
    rw [hx, hy, hz]

/-- Witness for C9: an unserializable payload whose `TypeError` text
lacks `"200"` is re-raised as itself, with nothing submitted. -/
theorem publish_body_serialization_error_classified_witness :
    (publish_body stdClient
      (.unserializable "Object of type set is not JSON serializable") "p" "t").2 = [] ∧
    (publish_body stdClient
      (.unserializable "Object of type set is not JSON serializable") "p" "t").1 =
      (if strHasSub "Object of type set is not JSON serializable" "200" = true
        then .error .recoverable
        else .error (.native "Object of type set is not JSON serializable")) :=
  publish_body_serialization_error_classified stdClient
    (.unserializable "Object of type set is not JSON serializable") "p" "t"
    "projects/p/topics/t" "Object of type set is not JSON serializable" rfl rfl

theorem mkChar_toNat (c : Char) : mkChar c.toNat = some c := by
  have h : Nat.isValidChar c.toNat := c.valid
  rw [mkChar, dif_pos h, Char.ofNat_toNat]

theorem char_toNat_lt (c : Char) : c.toNat < 1114112 := by
  have he : c.toNat = c.val.toNat := rfl
  rcases c.valid with h | ⟨h1, h2⟩ <;> omega

theorem utf8EncodeChar_lt (c : Char) : ∀ b ∈ utf8EncodeChar c, b < 256 := by
  have hv : c.toNat < 1114112 := char_toNat_lt c
  intro b hbmem
  rw [utf8EncodeChar] at hbmem
  by_cases h1 : c.toNat < 128
  · rw [if_pos h1] at hbmem
    simp only [List.mem_singleton] at hbmem
    omega
  · rw [if_neg h1] at hbmem
    by_cases h2 : c.toNat < 2048
    · rw [if_pos h2] at hbmem
      simp only [List.mem_cons, List.mem_singleton, List.not_mem_nil, or_false] at hbmem
      rcases hbmem with rfl | rfl <;> omega
    · rw [if_neg h2] at hbmem
      by_cases h3 : c.toNat < 65536
      · rw [if_pos h3] at hbmem
        simp only [List.mem_cons, List.not_mem_nil, or_false] at hbmem
        rcases hbmem with rfl | rfl | rfl <;> omega
      · rw [if_neg h3] at hbmem
        simp only [List.mem_cons, List.not_mem_nil, or_false] at hbmem
        rcases hbmem with rfl | rfl | rfl | rfl <;> omega

theorem strEncode_lt (v : String) : ∀ b ∈ strEncode v, b < 256 := by
  intro b hbmem
  rw [strEncode, List.mem_flatMap] at hbmem
  rcases hbmem with ⟨c, _, hc⟩
  exact utf8EncodeChar_lt c b hc

theorem utf8Decode_cons (b1 : Nat) (rest : List Nat) (n : Nat) (rest2 : List Nat)
    (h : utf8DecodeOne b1 rest = some (n, rest2)) :
    utf8Decode (b1 :: rest) =
      (utf8Decode rest2).bind fun cs => (mkChar n).map fun c => c :: cs := by
  rw [utf8Decode]
  split
  · rename_i heq
    rw [heq] at h
    cases h
  · rename_i n2 rest3 heq
    rw [h] at heq
    obtain ⟨rfl, rfl⟩ : n = n2 ∧ rest2 = rest3 := by
      simpa using heq
    rfl

theorem utf8Decode_encChar (c : Char) (bs : List Nat) :
    utf8Decode (utf8EncodeChar c ++ bs) = (utf8Decode bs).map fun cs => c :: cs := by
  have hv : c.toNat < 1114112 := char_toNat_lt c
  rw [utf8EncodeChar]
  by_cases h1 : c.toNat < 128
  · rw [if_pos h1, List.cons_append, List.nil_append]
    have hdec : utf8DecodeOne c.toNat bs = some (c.toNat, bs) := by
      simp only [utf8DecodeOne]
      rw [if_pos h1]
    rw [utf8Decode_cons _ _ _ _ hdec, mkChar_toNat]
    cases utf8Decode bs <;> rfl
  · rw [if_neg h1]
    by_cases h2 : c.toNat < 2048
    · rw [if_pos h2, List.cons_append, List.cons_append, List.nil_append]
      have hdec : utf8DecodeOne (192 + c.toNat / 64) ((128 + c.toNat % 64) :: bs) =
          some (c.toNat, bs) := by
        simp only [utf8DecodeOne]
        rw [if_neg (by omega), if_neg (by omega), if_pos (by omega)]
        rw [if_pos (by omega)]
        have harg : (192 + c.toNat / 64 - 192) * 64 + (128 + c.toNat % 64 - 128) = c.toNat := by
          omega
        rw [harg]
      rw [utf8Decode_cons _ _ _ _ hdec, mkChar_toNat]
      cases utf8Decode bs <;> rfl
    · by_cases h3 : c.toNat < 65536
      · rw [if_neg h2, if_pos h3, List.cons_append, List.cons_append, List.cons_append,
          List.nil_append]
        have hdec : utf8DecodeOne (224 + c.toNat / 4096)
            ((128 + c.toNat / 64 % 64) :: (128 + c.toNat % 64) :: bs) =
            some (c.toNat, bs) := by
          simp only [utf8DecodeOne]
          rw [if_neg (by omega), if_neg (by omega), if_neg (by omega), if_pos (by omega)]
          rw [if_pos (by omega)]
          have harg : (224 + c.toNat / 4096 - 224) * 4096 +
              (128 + c.toNat / 64 % 64 - 128) * 64 + (128 + c.toNat % 64 - 128) = c.toNat := by
            omega
          rw [harg]
        rw [utf8Decode_cons _ _ _ _ hdec, mkChar_toNat]
        cases utf8Decode bs <;> rfl
      · rw [if_neg h2, if_neg h3, List.cons_append, List.cons_append, List.cons_append,
          List.cons_append, List.nil_append]
        have hdec : utf8DecodeOne (240 + c.toNat / 262144)
            ((128 + c.toNat / 4096 % 64) :: (128 + c.toNat / 64 % 64) ::
              (128 + c.toNat % 64) :: bs) =
            some (c.toNat, bs) := by
          simp only [utf8DecodeOne]
          rw [if_neg (by omega), if_neg (by omega), if_neg (by omega), if_neg (by omega),
            if_pos (by omega)]
          rw [if_pos (by omega)]
          have harg : (240 + c.toNat / 262144 - 240) * 262144 +
              (128 + c.toNat / 4096 % 64 - 128) * 4096 +
              (128 + c.toNat / 64 % 64 - 128) * 64 + (128 + c.toNat % 64 - 128) = c.toNat := by
            omega
          rw [harg]
        rw [utf8Decode_cons _ _ _ _ hdec, mkChar_toNat]
        cases utf8Decode bs <;> rfl

theorem utf8Decode_flatMap (v : List Char) :
    utf8Decode (v.flatMap utf8EncodeChar) = some v := by
  induction v with
  | nil => rw [show ([] : List Char).flatMap utf8EncodeChar = [] from rfl, utf8Decode]
  | cons c cs ih =>
    rw [List.flatMap_cons, utf8Decode_encChar, ih]
    rfl

/-- C10: `compat_urlsafe_b64encode` round-trips — urlsafe base64
decoding its output and then UTF-8 decoding yields the input string
again, so the encoding is injective and losslessly invertible. -/
theorem compat_urlsafe_b64encode_roundtrip (v : String) :
    urlsafeB64DecodeUTF8 (compat_urlsafe_b64encode v) = some v := by
  rw [urlsafeB64DecodeUTF8, compat_urlsafe_b64encode]
  have hdata : (String.mk (b64encodeBytes (strEncode v))).data =
      b64encodeBytes (strEncode v) := rfl
  rw [hdata, b64decode_encode (strEncode v) (strEncode_lt v)]
  simp only [Option.some_bind]
  rw [show strEncode v = v.data.flatMap utf8EncodeChar from rfl, utf8Decode_flatMap]
  rfl

end PubsubLogging
